import Mathlib

/-
Shallow embedding of src/Xvector.hpp (template class Xvector<T, Alloc>).

Modelling choices, all taken from the source:
  * The C++ object state is the triple of private fields
    (data, xvector_size, xvector_capacity).  The raw buffer pointed to by
    `data` is modelled as `Option (List T)`: `none` is the null pointer,
    `some l` is an allocated block whose length is the number of slots the
    allocator handed out.  `alloc.allocate n` is modelled as returning a
    fresh block of `n` slots filled with an unspecified value `junk`
    (uninitialized memory); per the host allocator (operator new) even a
    zero-byte request returns a distinct non-null block, so allocation
    always yields `some`.
  * `data[i] = v` on a block is `List.set`, which silently drops a write
    past the end of the block (an out-of-bounds write in C++); `old[i]`
    reads are `List.getD _ i junk`, reading `junk` past the end.
  * A C++ exception that propagates out of a member function leaves the
    object with exactly the mutations performed before the throw; the
    fallible forms below return the post-call state paired with `true`
    (returned normally) or `false` (an exception escaped).
-/

namespace XVec

/-- State of an `Xvector<T>` object: the three fields declared at
src/Xvector.hpp lines 30-32. -/
structure Xv (T : Type) where
  data : Option (List T)
  xvector_size : Nat
  xvector_capacity : Nat
deriving DecidableEq, Repr

/-- A default-constructed `Xvector()`: all fields keep their member
initializers `nullptr`, `0`, `0`. -/
def emptyXv (T : Type) : Xv T := ⟨none, 0, 0⟩

/-- Dereference of the `data` pointer: the block, or `[]` for `nullptr`. -/
def buf {T : Type} (s : Xv T) : List T := s.data.getD []

/-- The loop `for (i = 0; i < n; i++) dst[i] = src[i];` used by every
reallocation in the source to copy the old block into the new one. -/
def copyUpTo {T : Type} (junk : T) (src : List T) : Nat → List T → List T
  | 0, dst => dst
  | Nat.succ m, dst => (copyUpTo junk src m dst).set m (src.getD m junk)

/-- The loop `for (i = lo; i < hi; i++) dst[i] = v;` used by both `resize`
overloads to fill the newly exposed slots. -/
def fillRange {T : Type} (v : T) (lo : Nat) : Nat → List T → List T
  | 0, dst => dst
  | Nat.succ m, dst =>
      if lo ≤ m then (fillRange v lo m dst).set m v else dst

/-- The loop `for (i = 0; i < n; i++) if (i != pos) dst[i] = src[i];` in
`Xvector::erase` (src/Xvector.hpp lines 355-359). -/
def copyExceptUpTo {T : Type} (junk : T) (src : List T) (pos : Nat) :
    Nat → List T → List T
  | 0, dst => dst
  | Nat.succ m, dst =>
      let d := copyExceptUpTo junk src pos m dst
      if m = pos then d else d.set m (src.getD m junk)

/-- The allocation capability `alloc.allocate n`: a fresh block of `n`
uninitialized slots, or `none` when the allocator throws. -/
def allocate {T : Type} (junk : T) (ok : Bool) (n : Nat) : Option (List T) :=
  if ok then some (List.replicate n junk) else none

/-- push_back(const T& x), src/Xvector.hpp lines 298-330, with a fallible
allocator: the Bool is `true` when the call returns normally and `false`
when `alloc.allocate` throws; the returned state carries every mutation
performed before the throw. -/
def pushBackCopyF {T : Type} (junk x : T) (ok : Bool) (s : Xv T) :
    Xv T × Bool :=
  if s.xvector_size = 0 then
    match allocate junk ok 1 with
    | none => (s, false)
    | some d0 =>
        (⟨some (d0.set s.xvector_size x), s.xvector_size + 1,
          s.xvector_capacity + 1⟩, true)
  else if s.xvector_size = s.xvector_capacity then
    let cap2 := s.xvector_capacity * 2
    match allocate junk ok cap2 with
    | none => (⟨s.data, s.xvector_size, cap2⟩, false)
    | some d0 =>
        let d1 := copyUpTo junk (buf s) s.xvector_size d0
        (⟨some (d1.set s.xvector_size x), s.xvector_size + 1, cap2⟩, true)
  else
    (⟨some ((buf s).set s.xvector_size x), s.xvector_size + 1,
      s.xvector_capacity⟩, true)

/-- push_back(const T& x) under a successful allocator. -/
def pushBackCopy {T : Type} (junk x : T) (s : Xv T) : Xv T :=
  (pushBackCopyF junk x true s).1

/-- push_back(T&& x), src/Xvector.hpp lines 265-296, with a fallible
allocator.  It differs from the copy form only in the `empty()` branch,
which increments the two counters without storing `x` into the new block. -/
def pushBackMoveF {T : Type} (junk x : T) (ok : Bool) (s : Xv T) :
    Xv T × Bool :=
  if s.xvector_size = 0 then
    match allocate junk ok 1 with
    | none => (s, false)
    | some d0 =>
        (⟨some d0, s.xvector_size + 1, s.xvector_capacity + 1⟩, true)
  else if s.xvector_size = s.xvector_capacity then
    let cap2 := s.xvector_capacity * 2
    match allocate junk ok cap2 with
    | none => (⟨s.data, s.xvector_size, cap2⟩, false)
    | some d0 =>
        let d1 := copyUpTo junk (buf s) s.xvector_size d0
        (⟨some (d1.set s.xvector_size x), s.xvector_size + 1, cap2⟩, true)
  else
    (⟨some ((buf s).set s.xvector_size x), s.xvector_size + 1,
      s.xvector_capacity⟩, true)

/-- push_back(T&& x) under a successful allocator. -/
def pushBackMove {T : Type} (junk x : T) (s : Xv T) : Xv T :=
  (pushBackMoveF junk x true s).1

/-- pop_back, src/Xvector.hpp lines 332-337:
`if (!empty() && data) xvector_size--;`. -/
def pop_back {T : Type} (s : Xv T) : Xv T :=
  if s.xvector_size ≠ 0 ∧ s.data.isSome = true then
    ⟨s.data, s.xvector_size - 1, s.xvector_capacity⟩
  else s

/-- clear, src/Xvector.hpp lines 339-346: destroys the elements,
deallocates the block, nulls `data` and zeroes both counters. -/
def clear {T : Type} (_s : Xv T) : Xv T := ⟨none, 0, 0⟩

/-- erase(pos), src/Xvector.hpp lines 348-361: only when
`!empty() && pos > xvector_size` does it allocate a fresh block of
`capacity` slots and copy every index except `pos` into it (the old block
leaks); the counters never change and nothing happens otherwise. -/
def erase {T : Type} (junk : T) (pos : Nat) (s : Xv T) : Xv T :=
  if s.xvector_size ≠ 0 ∧ s.xvector_size < pos then
    ⟨some (copyExceptUpTo junk (buf s) pos s.xvector_size
        (List.replicate s.xvector_capacity junk)),
      s.xvector_size, s.xvector_capacity⟩
  else s

/-- resize(new_size) and resize(new_size, x), src/Xvector.hpp lines
363-465.  The two overloads are textually identical except for the value
written into new slots (`T()` versus `x`); `fv` stands for that value. -/
def resizeFill {T : Type} (junk fv : T) (n : Nat) (s : Xv T) : Xv T :=
  match s.data with
  | none =>
      ⟨some (fillRange fv 0 n (List.replicate n junk)), n, n⟩
  | some dl =>
      if n = s.xvector_size then s
      else if n < s.xvector_size then
        ⟨some dl, n, s.xvector_capacity⟩
      else if n ≤ s.xvector_capacity then
        ⟨some (fillRange fv s.xvector_size n dl), n, s.xvector_capacity⟩
      else
        ⟨some (fillRange fv s.xvector_size n
            (copyUpTo junk dl s.xvector_size (List.replicate n junk))),
          n, n⟩

/-- at(pos), src/Xvector.hpp lines 479-495:
`if (pos > 0 || pos <= xvector_size) std::__throw_out_of_range(...)`;
`none` models the thrown OutOfRange, `some` the returned reference. -/
def atChecked {T : Type} (junk : T) (pos : Nat) (s : Xv T) : Option T :=
  if pos > 0 ∨ pos ≤ s.xvector_size then none
  else some ((buf s).getD pos junk)

/-- Forward iteration from begin() to end(): dereference each pointer in
`[data, data + xvector_size)` in order. -/
def iterSeq {T : Type} (junk : T) (s : Xv T) : List T :=
  (List.range s.xvector_size).map (fun i => (buf s).getD i junk)

/-- N sequential copy-form push_back calls, in list order. -/
def pushAll {T : Type} (junk : T) (l : List T) (s : Xv T) : Xv T :=
  l.foldl (fun t x => pushBackCopy junk x t) s

/-- The public mutating operations of the container. -/
inductive Op (T : Type) where
  | push (x : T)
  | pushM (x : T)
  | pop
  | clr
  | ers (pos : Nat)
  | rsz (n : Nat)
  | rszF (n : Nat) (x : T)
deriving DecidableEq, Repr

/-- One public call, under a successful allocator; `dflt` is the
default-constructed `T()` used by the one-argument resize. -/
def applyOp {T : Type} (junk dflt : T) : Op T → Xv T → Xv T
  | Op.push x, s => pushBackCopy junk x s
  | Op.pushM x, s => pushBackMove junk x s
  | Op.pop, s => pop_back s
  | Op.clr, s => clear s
  | Op.ers pos, s => erase junk pos s
  | Op.rsz n, s => resizeFill junk dflt n s
  | Op.rszF n x, s => resizeFill junk x n s

/-- Run a list of public calls from a given state. -/
def run {T : Type} (junk dflt : T) (ops : List (Op T)) (s : Xv T) : Xv T :=
  ops.foldl (fun t o => applyOp junk dflt o t) s

/-- A state reachable from a default-constructed Xvector by public calls. -/
def Reachable {T : Type} (junk dflt : T) (s : Xv T) : Prop :=
  ∃ ops : List (Op T), s = run junk dflt ops (emptyXv T)

/-- Representation invariant in the direction the code maintains: the
count never exceeds the capacity, and a null `data` pointer only occurs
with capacity 0. -/
def XvInv {T : Type} (s : Xv T) : Prop :=
  s.xvector_size ≤ s.xvector_capacity ∧ (s.data = none → s.xvector_capacity = 0)

/-- The state holds exactly the elements of `l` in order: an allocated
block of `capacity` slots whose first `count` slots are `l`. -/
def ModelsList {T : Type} (s : Xv T) (l : List T) : Prop :=
  ∃ dl, s.data = some dl ∧ dl.length = s.xvector_capacity ∧
    s.xvector_size = l.length ∧ s.xvector_size ≤ s.xvector_capacity ∧
    dl.take s.xvector_size = l

theorem buf_eq {T : Type} (s : Xv T) (dl : List T) (h : s.data = some dl) :
    buf s = dl := by
  rw [buf, h]
  rfl

theorem allocate_ok {T : Type} (junk : T) (n : Nat) :
    allocate junk true n = some (List.replicate n junk) := rfl

theorem allocate_fail {T : Type} (junk : T) (n : Nat) :
    allocate junk false n = none := rfl

theorem length_copyUpTo {T : Type} (junk : T) (src : List T) :
    ∀ (n : Nat) (dst : List T), (copyUpTo junk src n dst).length = dst.length
  | 0, _ => rfl
  | Nat.succ m, dst => by
      simp [copyUpTo, length_copyUpTo junk src m dst]

theorem copyUpTo_eq {T : Type} (junk : T) (src : List T) :
    ∀ (n : Nat) (dst : List T), n ≤ src.length → n ≤ dst.length →
      copyUpTo junk src n dst = src.take n ++ dst.drop n
  | 0, dst, _, _ => by simp [copyUpTo]
  | Nat.succ m, dst, h1, h2 => by
      have hm1 : m < src.length := Nat.lt_of_lt_of_le (Nat.lt_succ_self m) h1
      have hm2 : m < dst.length := Nat.lt_of_lt_of_le (Nat.lt_succ_self m) h2
      rw [copyUpTo,
        copyUpTo_eq junk src m dst (Nat.le_of_lt hm1) (Nat.le_of_lt hm2)]
      have htm : (src.take m).length = m := by
        simp [Nat.le_of_lt hm1]
      have hL : m < (src.take m ++ dst.drop m).length := by
        simp [htm]
        omega
      rw [List.set_eq_take_cons_drop _ hL, List.take_left' htm]
      have hd1 : m + 1 = (src.take m).length + 1 := by rw [htm]
      rw [hd1, List.drop_append, List.drop_drop]
      have hget : src.getD m junk = src[m] := by
        simp [List.getD_eq_getElem?_getD, List.getElem?_eq_getElem hm1]
      have htk : List.take (m + 1) src = List.take m src ++ [src[m]] := by
        rw [List.take_succ, List.getElem?_eq_getElem hm1]
        rfl
      rw [hget, htk, List.append_assoc, List.singleton_append]

theorem fillRange_eq {T : Type} (v : T) (lo : Nat) :
    ∀ (hi : Nat) (dst : List T), lo ≤ hi → hi ≤ dst.length →
      fillRange v lo hi dst =
        dst.take lo ++ List.replicate (hi - lo) v ++ dst.drop hi
  | 0, dst, h1, _ => by
      have : lo = 0 := Nat.le_zero.mp h1
      subst this
      simp [fillRange]
  | Nat.succ m, dst, h1, h2 => by
      by_cases hlo : lo ≤ m
      · rw [fillRange, if_pos hlo,
          fillRange_eq v lo m dst hlo (Nat.le_of_lt h2)]
        have hto : (dst.take lo).length = lo := by
          simp
          omega
        have hAB : ((dst.take lo ++ List.replicate (m - lo) v)).length = m := by
          simp
          omega
        have hL : m <
            ((dst.take lo ++ List.replicate (m - lo) v) ++ dst.drop m).length := by
          simp
          omega
        rw [List.set_eq_take_cons_drop _ hL, List.take_left' hAB]
        have hd1 : m + 1 = (dst.take lo ++ List.replicate (m - lo) v).length + 1 := by
          rw [hAB]
        rw [hd1, List.drop_append, List.drop_drop]
        have hrep : List.replicate (m + 1 - lo) v =
            List.replicate (m - lo) v ++ [v] := by
          have : m + 1 - lo = (m - lo) + 1 := by omega
          rw [this, List.replicate_succ']
        rw [hrep]
        simp
      · have hle : lo = m + 1 := by omega
        subst hle
        rw [fillRange, if_neg hlo]
        simp

theorem pushBackCopy_def {T : Type} (junk x : T) (s : Xv T) :
    pushBackCopy junk x s =
      if s.xvector_size = 0 then
        ⟨some ((List.replicate 1 junk).set s.xvector_size x),
          s.xvector_size + 1, s.xvector_capacity + 1⟩
      else if s.xvector_size = s.xvector_capacity then
        ⟨some ((copyUpTo junk (buf s) s.xvector_size
            (List.replicate (s.xvector_capacity * 2) junk)).set s.xvector_size x),
          s.xvector_size + 1, s.xvector_capacity * 2⟩
      else
        ⟨some ((buf s).set s.xvector_size x), s.xvector_size + 1,
          s.xvector_capacity⟩ := by
  unfold pushBackCopy pushBackCopyF
  simp only [allocate_ok]
  split_ifs <;> rfl

theorem pushBackMove_def {T : Type} (junk x : T) (s : Xv T) :
    pushBackMove junk x s =
      if s.xvector_size = 0 then
        ⟨some (List.replicate 1 junk), s.xvector_size + 1, s.xvector_capacity + 1⟩
      else if s.xvector_size = s.xvector_capacity then
        ⟨some ((copyUpTo junk (buf s) s.xvector_size
            (List.replicate (s.xvector_capacity * 2) junk)).set s.xvector_size x),
          s.xvector_size + 1, s.xvector_capacity * 2⟩
      else
        ⟨some ((buf s).set s.xvector_size x), s.xvector_size + 1,
          s.xvector_capacity⟩ := by
  unfold pushBackMove pushBackMoveF
  simp only [allocate_ok]
  split_ifs <;> rfl

theorem resizeFill_inv {T : Type} (junk fv : T) (n : Nat) (s : Xv T)
    (h : XvInv s) : XvInv (resizeFill junk fv n s) := by
  obtain ⟨h1, h2⟩ := h
  cases hd : s.data with
  | none =>
      simp only [resizeFill, hd]
      exact ⟨Nat.le_refl n, by simp⟩
  | some dl =>
      simp only [resizeFill, hd]
      split_ifs with e1 e2 e3
      · exact ⟨h1, h2⟩
      · have hn : n ≤ s.xvector_capacity := by omega
        exact ⟨hn, fun hc => Option.noConfusion hc⟩
      · exact ⟨e3, fun hc => Option.noConfusion hc⟩
      · exact ⟨Nat.le_refl n, fun hc => Option.noConfusion hc⟩

theorem applyOp_inv {T : Type} (junk dflt : T) (o : Op T) (s : Xv T)
    (h : XvInv s) : XvInv (applyOp junk dflt o s) := by
  obtain ⟨h1, h2⟩ := h
  cases o with
  | push x =>
      show XvInv (pushBackCopy junk x s)
      rw [pushBackCopy_def]
      split_ifs with e1 e2
      · have hle : s.xvector_size + 1 ≤ s.xvector_capacity + 1 := by omega
        exact ⟨hle, fun hc => Option.noConfusion hc⟩
      · have hle : s.xvector_size + 1 ≤ s.xvector_capacity * 2 := by omega
        exact ⟨hle, fun hc => Option.noConfusion hc⟩
      · have hle : s.xvector_size + 1 ≤ s.xvector_capacity := by omega
        exact ⟨hle, fun hc => Option.noConfusion hc⟩
  | pushM x =>
      show XvInv (pushBackMove junk x s)
      rw [pushBackMove_def]
      split_ifs with e1 e2
      · have hle : s.xvector_size + 1 ≤ s.xvector_capacity + 1 := by omega
        exact ⟨hle, fun hc => Option.noConfusion hc⟩
      · have hle : s.xvector_size + 1 ≤ s.xvector_capacity * 2 := by omega
        exact ⟨hle, fun hc => Option.noConfusion hc⟩
      · have hle : s.xvector_size + 1 ≤ s.xvector_capacity := by omega
        exact ⟨hle, fun hc => Option.noConfusion hc⟩
  | pop =>
      show XvInv (pop_back s)
      unfold pop_back
      split_ifs with e1
      · have hle : s.xvector_size - 1 ≤ s.xvector_capacity := by omega
        exact ⟨hle, h2⟩
      · exact ⟨h1, h2⟩
  | clr => exact ⟨Nat.le_refl 0, fun _ => rfl⟩
  | ers pos =>
      show XvInv (erase junk pos s)
      unfold erase
      split_ifs with e1
      · exact ⟨h1, fun hc => Option.noConfusion hc⟩
      · exact ⟨h1, h2⟩
  | rsz n => exact resizeFill_inv junk dflt n s ⟨h1, h2⟩
  | rszF n x => exact resizeFill_inv junk x n s ⟨h1, h2⟩

theorem run_inv {T : Type} (junk dflt : T) :
    ∀ (ops : List (Op T)) (s : Xv T), XvInv s → XvInv (run junk dflt ops s)
  | [], _, h => h
  | o :: ops, s, h =>
      run_inv junk dflt ops (applyOp junk dflt o s) (applyOp_inv junk dflt o s h)

/-- C4 (amended): every state reachable from a default-constructed
Sequence through the public operations satisfies count ≤ capacity, and a
null data pointer only occurs with capacity 0.  The converse direction of
the claimed iff (capacity 0 implies no storage) is false on the code: see
the counterexample theorem. -/
theorem C4_reachable_invariant {T : Type} (junk dflt : T) (s : Xv T)
    (h : Reachable junk dflt s) :
    s.xvector_size ≤ s.xvector_capacity ∧
    (s.data = none → s.xvector_capacity = 0) := by
  obtain ⟨ops, rfl⟩ := h
  exact run_inv junk dflt ops (emptyXv T) ⟨Nat.le_refl 0, fun _ => rfl⟩

/-- C4 witness: the invariant holds at the reachable one-element state
produced by a single push_back. -/
theorem C4_reachable_invariant_witness :
    Reachable (0 : Int) 0 ⟨some [5], 1, 1⟩ ∧
    ((⟨some [5], 1, 1⟩ : Xv Int).xvector_size ≤
        (⟨some [5], 1, 1⟩ : Xv Int).xvector_capacity ∧
      ((⟨some [5], 1, 1⟩ : Xv Int).data = none →
        (⟨some [5], 1, 1⟩ : Xv Int).xvector_capacity = 0)) :=
  ⟨⟨[Op.push 5], rfl⟩,
    C4_reachable_invariant 0 0 ⟨some [5], 1, 1⟩ ⟨[Op.push 5], rfl⟩⟩

/-- C4 counterexample: `resize(0)` on a fresh Sequence takes the
unallocated branch and calls `alloc.allocate(0)`, which (like operator
new) hands back a non-null zero-slot block; the resulting reachable state
has capacity 0 together with live storage, refuting the claimed
equivalence between capacity 0 and the null storage state. -/
theorem C4_capacity_zero_with_storage :
    Reachable (0 : Int) 0 ⟨some [], 0, 0⟩ ∧
    (⟨some [], 0, 0⟩ : Xv Int).xvector_capacity = 0 ∧
    (⟨some [], 0, 0⟩ : Xv Int).data ≠ none :=
  ⟨⟨[Op.rsz 0], rfl⟩, rfl, by decide⟩

theorem pushBackCopy_size {T : Type} (junk x : T) (s : Xv T) :
    (pushBackCopy junk x s).xvector_size = s.xvector_size + 1 := by
  rw [pushBackCopy_def]
  split_ifs <;> rfl

theorem iterSeq_eq_take {T : Type} (junk : T) (s : Xv T) (dl : List T)
    (hd : s.data = some dl) (hlen : s.xvector_size ≤ dl.length) :
    iterSeq junk s = dl.take s.xvector_size := by
  unfold iterSeq
  rw [buf_eq s dl hd]
  apply List.ext_getElem?
  intro i
  rw [List.getElem?_map, List.getElem?_take]
  by_cases hi : i < s.xvector_size
  · have hil : i < dl.length := Nat.lt_of_lt_of_le hi hlen
    rw [List.getElem?_range hi, if_pos hi]
    simp [List.getD_eq_getElem?_getD, List.getElem?_eq_getElem hil]
  · rw [if_neg hi]
    have hr : (List.range s.xvector_size).length ≤ i := by
      simp
      omega
    rw [List.getElem?_eq_none hr]
    rfl

theorem pushBackCopy_extends {T : Type} (junk x : T) (s : Xv T) (l : List T)
    (hm : ModelsList s l) (hpos : 1 ≤ s.xvector_size) :
    ModelsList (pushBackCopy junk x s) (l ++ [x]) := by
  obtain ⟨dl, hd, hlen, hsz, hle, htake⟩ := hm
  have h0 : ¬s.xvector_size = 0 := by omega
  rw [pushBackCopy_def, if_neg h0]
  by_cases hcap : s.xvector_size = s.xvector_capacity
  · rw [if_pos hcap, buf_eq s dl hd]
    have hc1 : s.xvector_size ≤ dl.length := by omega
    have hc2 : s.xvector_size ≤
        (List.replicate (s.xvector_capacity * 2) junk).length := by
      simp
      omega
    rw [copyUpTo_eq junk dl _ _ hc1 hc2, List.drop_replicate]
    have htl : (dl.take s.xvector_size).length = s.xvector_size := by
      simp
      omega
    have hLlen : s.xvector_size < (dl.take s.xvector_size ++
        List.replicate (s.xvector_capacity * 2 - s.xvector_size) junk).length := by
      simp
      omega
    rw [List.set_eq_take_cons_drop _ hLlen, List.take_left' htl]
    have hd1 : s.xvector_size + 1 = (dl.take s.xvector_size).length + 1 := by
      rw [htl]
    have hdrop : (dl.take s.xvector_size ++
        List.replicate (s.xvector_capacity * 2 - s.xvector_size) junk).drop
          (s.xvector_size + 1) =
        List.replicate (s.xvector_capacity * 2 - s.xvector_size - 1) junk := by
      rw [hd1, List.drop_append, List.drop_replicate]
    rw [hdrop]
    have htk : (dl.take s.xvector_size ++ x ::
        List.replicate (s.xvector_capacity * 2 - s.xvector_size - 1) junk).take
          (s.xvector_size + 1) = l ++ [x] := by
      rw [hd1, List.take_append, htake]
      rfl
    refine ⟨_, rfl, ?_, ?_, ?_, ?_⟩
    · simp only [List.length_append, List.length_cons, List.length_replicate,
        htl]
      omega
    · show s.xvector_size + 1 = (l ++ [x]).length
      simp only [List.length_append, List.length_cons, List.length_nil]
      omega
    · show s.xvector_size + 1 ≤ s.xvector_capacity * 2
      omega
    · exact htk
  · rw [if_neg hcap, buf_eq s dl hd]
    have hsl : s.xvector_size < dl.length := by omega
    rw [List.set_eq_take_cons_drop _ hsl]
    have htl : (dl.take s.xvector_size).length = s.xvector_size := by
      simp
      omega
    have hd1 : s.xvector_size + 1 = (dl.take s.xvector_size).length + 1 := by
      rw [htl]
    have htk : (dl.take s.xvector_size ++ x ::
        dl.drop (s.xvector_size + 1)).take (s.xvector_size + 1) = l ++ [x] := by
      rw [hd1, List.take_append, htake]
      rfl
    refine ⟨_, rfl, ?_, ?_, ?_, ?_⟩
    · simp only [List.length_append, List.length_cons, List.length_drop, htl]
      omega
    · show s.xvector_size + 1 = (l ++ [x]).length
      simp only [List.length_append, List.length_cons, List.length_nil]
      omega
    · show s.xvector_size + 1 ≤ s.xvector_capacity
      omega
    · exact htk

theorem pushAll_extends {T : Type} (junk : T) :
    ∀ (rest : List T) (s : Xv T) (l : List T),
      ModelsList s l → 1 ≤ s.xvector_size →
      ModelsList (pushAll junk rest s) (l ++ rest)
  | [], s, l, hm, _ => by simpa using hm
  | y :: rest, s, l, hm, hpos => by
      have h1 := pushBackCopy_extends junk y s l hm hpos
      have h2 : 1 ≤ (pushBackCopy junk y s).xvector_size := by
        rw [pushBackCopy_size]
        omega
      have h3 := pushAll_extends junk rest (pushBackCopy junk y s) (l ++ [y])
        h1 h2
      have hl : l ++ [y] ++ rest = l ++ y :: rest := by simp
      rw [← hl]
      exact h3

/-- C7: starting from a default-constructed Sequence, N sequential
push_back calls with the values of `l` yield count = N, and forward
iteration from begin() to end() then produces exactly the values of `l`
in append order. -/
theorem C7_append_then_iterate {T : Type} (junk : T) (l : List T) :
    (pushAll junk l (emptyXv T)).xvector_size = l.length ∧
    iterSeq junk (pushAll junk l (emptyXv T)) = l := by
  cases l with
  | nil => exact ⟨rfl, rfl⟩
  | cons x rest =>
      have hbase : ModelsList (pushBackCopy junk x (emptyXv T)) [x] :=
        ⟨[x], rfl, rfl, rfl, Nat.le_refl 1, rfl⟩
      have hpos1 : 1 ≤ (pushBackCopy junk x (emptyXv T)).xvector_size := by
        rw [pushBackCopy_size]
        omega
      obtain ⟨dl, hdd, hlen, hsz, hle, htake⟩ :=
        pushAll_extends junk rest (pushBackCopy junk x (emptyXv T)) [x]
          hbase hpos1
      have heq : pushAll junk (x :: rest) (emptyXv T) =
          pushAll junk rest (pushBackCopy junk x (emptyXv T)) := rfl
      constructor
      · rw [heq, hsz]
        rfl
      · rw [heq, iterSeq_eq_take junk _ dl hdd (by omega), htake]
        rfl

/-- C1: the claim says `at(pos)` fails with OutOfRange iff `pos ≥ count`
and returns the element for `pos < count`; in the code the guard
`pos > 0 || pos <= xvector_size` is tautological over unsigned `pos`, so
the checked access throws OutOfRange for every position of every
Sequence, in particular for in-range positions the claim says succeed. -/
theorem C1_at_always_out_of_range {T : Type} (junk : T) (pos : Nat)
    (s : Xv T) : atChecked junk pos s = none := by
  unfold atChecked
  rw [if_pos]
  cases pos with
  | zero => exact Or.inr (Nat.zero_le _)
  | succ p => exact Or.inl (Nat.succ_pos p)

/-- C2: the claim says `erase(pos)` with `pos < count` removes the element
at `pos`, shifts later elements left and decrements count, and that
`pos ≥ count` fails with InvalidOperation leaving the Sequence unchanged;
the code's guard `!empty() && pos > xvector_size` is inverted, so on the
Sequence `[10, 20]` both `erase(0)` and `erase(2)` return with the state
completely unchanged — nothing is removed, count stays 2, and no failure
is ever signalled. -/
theorem C2_erase_in_range_does_nothing :
    erase (0 : Int) 0 ⟨some [10, 20], 2, 2⟩ = ⟨some [10, 20], 2, 2⟩ ∧
    erase (0 : Int) 2 ⟨some [10, 20], 2, 2⟩ = ⟨some [10, 20], 2, 2⟩ :=
  ⟨rfl, rfl⟩

/-- C3 counterexample: the claim says `clear()` leaves capacity and
storage unchanged; on the one-element Sequence built by a single
push_back the capacity is 1 before `clear()` and 0 after, and the storage
pointer is nulled. -/
theorem C3_clear_drops_capacity :
    (pushBackCopy (0 : Int) 5 (emptyXv Int)).xvector_capacity = 1 ∧
    (clear (pushBackCopy (0 : Int) 5 (emptyXv Int))).xvector_capacity = 0 ∧
    (clear (pushBackCopy (0 : Int) 5 (emptyXv Int))).data = none :=
  ⟨rfl, rfl, rfl⟩

/-- C3 (amended): `clear()` destroys the elements, deallocates the block,
nulls the data pointer and sets both count and capacity to 0; a push_back
performed after `clear()` therefore starts from the empty state and
allocates a fresh one-slot block (capacity 1) instead of reusing the old
storage. -/
theorem C3_clear_releases_storage {T : Type} (junk x : T) (s : Xv T) :
    clear s = ⟨none, 0, 0⟩ ∧
    pushBackCopy junk x (clear s) = ⟨some [x], 1, 1⟩ :=
  ⟨rfl, rfl⟩

/-- C5: the claim says a growing append that fails to allocate leaves the
Sequence in its last valid state; the code executes
`xvector_capacity *= 2` before calling `alloc.allocate`, so when the
allocation throws on the full one-element Sequence `[5]` the exception
propagates with the capacity field already doubled to 2 while the block
still has one slot — the state is corrupted, not the last valid one. -/
theorem C5_alloc_failure_leaves_doubled_capacity :
    pushBackCopyF (0 : Int) 7 false ⟨some [5], 1, 1⟩ =
      (⟨some [5], 1, 2⟩, false) ∧
    pushBackMoveF (0 : Int) 7 false ⟨some [5], 1, 1⟩ =
      (⟨some [5], 1, 2⟩, false) ∧
    (⟨some [5], 1, 2⟩ : Xv Int) ≠ ⟨some [5], 1, 1⟩ :=
  ⟨rfl, rfl, by decide⟩

/-- C6: the claim says a push_back with count < capacity never changes
the capacity; the growth guard tests `empty()` (count = 0) instead of
capacity, so after push_back(5); pop_back() the state has count 0 and
capacity 1, and the next push_back re-enters the first-allocation branch:
it allocates a fresh one-slot block and increments capacity to 2 even
though count (0) was strictly below capacity (1). -/
theorem C6_push_below_capacity_grows :
    pop_back (pushBackCopy (0 : Int) 5 (emptyXv Int)) = ⟨some [5], 0, 1⟩ ∧
    pushBackCopy (0 : Int) 7 ⟨some [5], 0, 1⟩ = ⟨some [7], 1, 2⟩ :=
  ⟨rfl, rfl⟩

/-- C9: on an empty Sequence the move-form push_back allocates a one-slot
block and increments count and capacity to 1 without ever storing `x`,
so the slot keeps its uninitialized contents `junk` whatever `x` is,
whereas the copy-form push_back writes `x` into the slot. -/
theorem C9_move_push_empty_skips_write {T : Type} (junk x : T) :
    pushBackMove junk x (emptyXv T) = ⟨some [junk], 1, 1⟩ ∧
    pushBackCopy junk x (emptyXv T) = ⟨some [x], 1, 1⟩ :=
  ⟨rfl, rfl⟩

/-- C10: on any Sequence with count ≥ 1 the move-form and the copy-form
push_back take the same branches and perform the same writes, so they
produce identical states: same count, same capacity, same contents. -/
theorem C10_move_copy_agree {T : Type} (junk x : T) (s : Xv T)
    (h : 1 ≤ s.xvector_size) :
    pushBackMove junk x s = pushBackCopy junk x s := by
  have h0 : ¬s.xvector_size = 0 := by omega
  simp only [pushBackMove, pushBackCopy, pushBackMoveF, pushBackCopyF,
    if_neg h0]

/-- C8 (amended): on a Sequence that owns storage (non-null block of
exactly `capacity` slots, count ≤ capacity), `resize(n)` truncates to
count n without touching block or capacity when n < count, is a no-op
when n = count, fills slots `[count, n)` with the fill value within
capacity, and reallocates to capacity exactly n (no doubling) preserving
the live prefix when n > capacity.  On a Sequence with no storage the
code instead always takes the allocation branch, so `resize(0)` there is
not a no-op: see the counterexample theorem. -/
theorem C8_resize_cases {T : Type} (junk fv : T) (s : Xv T) (dl : List T)
    (n : Nat) (hd : s.data = some dl)
    (hlen : dl.length = s.xvector_capacity)
    (hsz : s.xvector_size ≤ s.xvector_capacity) :
    (n < s.xvector_size →
      resizeFill junk fv n s = ⟨some dl, n, s.xvector_capacity⟩) ∧
    (n = s.xvector_size → resizeFill junk fv n s = s) ∧
    (s.xvector_size < n → n ≤ s.xvector_capacity →
      resizeFill junk fv n s =
        ⟨some (dl.take s.xvector_size ++
            List.replicate (n - s.xvector_size) fv ++ dl.drop n),
          n, s.xvector_capacity⟩) ∧
    (s.xvector_capacity < n →
      resizeFill junk fv n s =
        ⟨some (dl.take s.xvector_size ++
            List.replicate (n - s.xvector_size) fv), n, n⟩) := by
  simp only [resizeFill, hd]
  refine ⟨?_, ?_, ?_, ?_⟩
  · intro hlt
    rw [if_neg (by omega), if_pos hlt]
  · intro heq
    rw [if_pos heq]
  · intro hgt hcap
    rw [if_neg (by omega), if_neg (by omega), if_pos hcap,
      fillRange_eq fv s.xvector_size n dl (by omega) (by omega)]
  · intro hgt
    rw [if_neg (by omega), if_neg (by omega), if_neg (by omega),
      copyUpTo_eq junk dl s.xvector_size (List.replicate n junk) (by omega)
        (by simp; omega),
      List.drop_replicate,
      fillRange_eq fv s.xvector_size n _ (by omega) (by simp; omega)]
    have htl : (dl.take s.xvector_size).length = s.xvector_size := by
      simp
      omega
    have hLd : (dl.take s.xvector_size ++
        List.replicate (n - s.xvector_size) junk).drop n = [] :=
      List.drop_of_length_le (by simp; omega)
    rw [List.take_left' htl, hLd, List.append_nil]

/-- C8 witness: on the Sequence holding `[1]` in a two-slot block,
`resize(2, 9)` fills the new slot with 9 and keeps capacity 2. -/
theorem C8_resize_cases_witness :
    (⟨some [1, 2], 1, 2⟩ : Xv Int).data = some [1, 2] ∧
    resizeFill (0 : Int) 9 2 ⟨some [1, 2], 1, 2⟩ = ⟨some [1, 9], 2, 2⟩ :=
  ⟨rfl,
    ((C8_resize_cases (0 : Int) 9 ⟨some [1, 2], 1, 2⟩ [1, 2] 2 rfl
        (by decide) (by decide)).2.2.1 (by decide) (by decide)).trans
      (by decide)⟩

/-- C8 counterexample: `resize(0)` on a fresh Sequence (count already 0)
is not a no-op — the null-pointer branch allocates a zero-slot block, so
the storage state changes from the null pointer to a live block. -/
theorem C8_fresh_resize_zero_not_noop :
    resizeFill (0 : Int) 0 0 (emptyXv Int) = ⟨some [], 0, 0⟩ ∧
    (emptyXv Int).data = none ∧
    resizeFill (0 : Int) 0 0 (emptyXv Int) ≠ emptyXv Int :=
  ⟨rfl, rfl, by decide⟩

/-- C10 witness: the two push_back forms agree on the concrete one-element
Sequence `[5]`. -/
theorem C10_move_copy_agree_witness :
    1 ≤ (⟨some [5], 1, 1⟩ : Xv Int).xvector_size ∧
    pushBackMove (0 : Int) 7 ⟨some [5], 1, 1⟩ =
      pushBackCopy (0 : Int) 7 ⟨some [5], 1, 1⟩ :=
  ⟨by decide, C10_move_copy_agree 0 7 ⟨some [5], 1, 1⟩ (by decide)⟩

end XVec
